import Mathlib

/-!
Verification of the adabot core: a shallow embedding of
`adabot/github_requests.py` (rate-limited request client) and
`adabot/update_cp_org_libraries.py` (repository activity aggregator,
report serializer, publish flow), with theorems settling the spec claims.

Python dictionaries are embedded as insertion-ordered association lists,
datetimes as integer second counts, and each outbound HTTP call as a
per-call oracle value (`Option` of the decoded body, `none` meaning a
response with `ok = False`).
-/

namespace Adabot

/-- Association-list lookup, modelling Python `d[k]` / `k in d`. -/
def alookup {α : Type} : List (String × α) → String → Option α
  | [], _ => none
  | (k, v) :: rest, key => if k = key then some v else alookup rest key

/-- Association-list assignment, modelling Python `d[k] = v`: an existing
key keeps its position and gets the new value, a fresh key is appended. -/
def dictSet {α : Type} : List (String × α) → String → α → List (String × α)
  | [], key, v => [(key, v)]
  | (k, v') :: rest, key, v =>
    if k = key then (k, v) :: rest else (k, v') :: dictSet rest key v

theorem alookup_dictSet {α : Type} (d : List (String × α)) (key : String) (v : α) :
    alookup (dictSet d key v) key = some v := by
  induction d with
  | nil => simp [dictSet, alookup]
  | cons p rest ih =>
    by_cases h : p.1 = key
    · simp [dictSet, alookup, h]
    · simp [dictSet, alookup, h, ih]

/-! ## `github_requests.py`: the rate-limited request client -/

/-- The Accept value appended when the caller already supplies an Accept
header (`api_version` in `_fix_kwargs`). -/
def apiVersionFull : String :=
  "application/vnd.github.scarlet-witch-preview+json;application/vnd.github.hellcat-preview+json"

/-- The Accept value installed when the caller supplies no headers at all. -/
def apiVersionDefault : String := "application/vnd.github.hellcat-preview+json"

/-- The transport options of one outbound call (`kwargs`): optional header
dict, optional query-parameter dict, and whether explicit auth was given. -/
structure Kwargs where
  headers : Option (List (String × String))
  params : Option (List (String × String))
  hasAuth : Bool
deriving Repr, DecidableEq

/-- Embeds `_fix_url`: paths starting with "/" are rewritten against the
fixed API base, absolute URLs pass through. -/
def fix_url (url : String) : String :=
  if url.startsWith "/" then "https://api.github.com" ++ url else url

/-- Embeds `_fix_kwargs`: merges the preview-feature Accept value into any
caller-supplied Accept header (appending `";" + api_version`), installs a
default Accept otherwise, and injects the environment access token as a
query parameter when present and no explicit auth was given. -/
def fix_kwargs (envToken : Option String) (kwargs : Kwargs) : Kwargs :=
  let headers :=
    match kwargs.headers with
    | some hs =>
      match alookup hs "Accept" with
      | some a => some (dictSet hs "Accept" (a ++ (";" ++ apiVersionFull)))
      | none => some (dictSet hs "Accept" apiVersionFull)
    | none => some [("Accept", apiVersionDefault)]
  let params :=
    match envToken, kwargs.hasAuth with
    | some tok, false =>
      match kwargs.params with
      | some ps => some (dictSet ps "access_token" tok)
      | none => some [("access_token", tok)]
    | _, _ => kwargs.params
  { headers := headers, params := params, hasAuth := kwargs.hasAuth }

/-- The rate-limit headers of a GET response: `X-RateLimit-Remaining`
(absent when the header is missing) and `X-RateLimit-Reset` (read only
when remaining is low). -/
structure RateLimitHeaders where
  remaining : Option Int
  reset : Int
deriving Repr, DecidableEq

/-- Embeds the `while datetime.datetime.now() < rate_limit_reset` loop of
`get`. `clock` is the stream of successive `now()` samples observed at the
loop condition; the result is the sample at which the loop exits (`none`
when the finite sample list is exhausted while still below the reset). -/
def rateLimitWaitLoop (reset : Int) : List Int → Option Int
  | [] => none
  | t :: ts => if t < reset then rateLimitWaitLoop reset ts else some t

/-- Embeds the rate-limit back-pressure of `get`: the time at which control
returns to the caller (so the next API call can be issued). With no
remaining-calls header, or remaining > 1, the call completes at `respTime`;
with remaining ≤ 1 it completes only when the wait loop observes a clock
sample at or past the reset time. -/
def getCompletionTime (h : RateLimitHeaders) (respTime : Int) (clock : List Int) : Option Int :=
  match h.remaining with
  | none => some respTime
  | some r => if r ≤ 1 then rateLimitWaitLoop h.reset clock else some respTime

theorem rateLimitWaitLoop_spec (reset : Int) (clock : List Int) (t : Int)
    (h : rateLimitWaitLoop reset clock = some t) :
    reset ≤ t ∧ ∃ pre post, clock = pre ++ t :: post ∧ ∀ u ∈ pre, u < reset := by
  induction clock with
  | nil => simp [rateLimitWaitLoop] at h
  | cons c cs ih =>
    rw [rateLimitWaitLoop] at h
    by_cases hc : c < reset
    · rw [if_pos hc] at h
      obtain ⟨hle, pre, post, hsplit, hpre⟩ := ih h
      refine ⟨hle, c :: pre, post, by simp [hsplit], ?_⟩
      intro u hu
      rcases List.mem_cons.mp hu with h1 | h2
      · exact h1 ▸ hc
      · exact hpre u h2
    · rw [if_neg hc] at h
      obtain rfl := Option.some_injective _ h
      exact ⟨le_of_not_lt hc, [], cs, rfl, by simp⟩

/-- C1: after a GET whose response carries a remaining-calls header with
value ≤ 1, the client blocks: control returns to the caller (allowing the
next API call) only at a clock sample `t` at or past the reset time, and
every clock sample observed before `t` was re-checked in the loop and
found below the reset. -/
theorem rate_limit_blocks (h : RateLimitHeaders) (respTime t : Int)
    (clock : List Int) (r : Int)
    (hrem : h.remaining = some r) (hlow : r ≤ 1)
    (hdone : getCompletionTime h respTime clock = some t) :
    h.reset ≤ t ∧ ∃ pre post, clock = pre ++ t :: post ∧ ∀ u ∈ pre, u < h.reset := by
  simp only [getCompletionTime, hrem] at hdone
  rw [if_pos hlow] at hdone
  exact rateLimitWaitLoop_spec h.reset clock t hdone

/-- Witness for C1: remaining = 1, reset = 100, clock samples 50, 90, 120;
the call completes at 120 ≥ 100 and the samples 50, 90 were below reset. -/
theorem rate_limit_blocks_witness :
    (100 : Int) ≤ 120 ∧
      ∃ pre post, ([50, 90, 120] : List Int) = pre ++ 120 :: post ∧
        ∀ u ∈ pre, u < (100 : Int) :=
  rate_limit_blocks ⟨some 1, 100⟩ 50 120 [50, 90, 120] 1 rfl (by decide) (by decide)

/-- C9: when the caller supplies an Accept header, `_fix_kwargs` appends
`";" + api_version` to the caller's value, so the sent Accept header keeps
the caller's content as a prefix. -/
theorem accept_header_appended (envToken : Option String) (kw : Kwargs)
    (hs : List (String × String)) (a : String)
    (hh : kw.headers = some hs) (ha : alookup hs "Accept" = some a) :
    ∃ hs', (fix_kwargs envToken kw).headers = some hs' ∧
      alookup hs' "Accept" = some (a ++ (";" ++ apiVersionFull)) ∧
      a.data <+: (a ++ (";" ++ apiVersionFull)).data := by
  refine ⟨dictSet hs "Accept" (a ++ (";" ++ apiVersionFull)), ?_, ?_, ?_⟩
  · simp [fix_kwargs, hh, ha]
  · exact alookup_dictSet hs "Accept" _
  · rw [String.data_append]
    exact List.prefix_append _ _

/-- Witness for C9: a caller-supplied `Accept: application/json` comes back
with the preview value appended after it. -/
theorem accept_header_appended_witness :
    ∃ hs', (fix_kwargs none ⟨some [("Accept", "application/json")], none, false⟩).headers = some hs' ∧
      alookup hs' "Accept" = some ("application/json" ++ (";" ++ apiVersionFull)) ∧
      ("application/json" : String).data <+: ("application/json" ++ (";" ++ apiVersionFull)).data :=
  accept_header_appended none ⟨some [("Accept", "application/json")], none, false⟩
    [("Accept", "application/json")] "application/json" rfl (by decide)

/-! ## `update_cp_org_libraries.py`: per-repository queries -/

/-- One item of the issues-endpoint response: its URL, title, and whether
the `pull_request` field is present on it. -/
structure IssueRecord where
  html_url : String
  title : String
  has_pull_request : Bool
deriving Repr, DecidableEq

/-- The loop body of `get_open_issues_and_prs`: items without the
`pull_request` marker are appended to the open-issues sequence, items with
it to the open-pull-requests sequence, each as a single-entry URL→title
mapping (embedded as a pair). -/
def issuesLoop : List IssueRecord → List (String × String) × List (String × String)
  | [] => ([], [])
  | issue :: rest =>
    let (is, ps) := issuesLoop rest
    if issue.has_pull_request then (is, (issue.html_url, issue.title) :: ps)
    else ((issue.html_url, issue.title) :: is, ps)

/-- Embeds `get_open_issues_and_prs`. The argument is the decoded issues
response, `none` standing for a response with `result.ok` false, on which
the function returns two empty sequences. -/
def get_open_issues_and_prs (resp : Option (List IssueRecord)) :
    List (String × String) × List (String × String) :=
  match resp with
  | none => ([], [])
  | some issues => issuesLoop issues

/-- C6: the open-issues query soft-fails to two empty sequences on an
unsuccessful request, and on success partitions the returned items, in
order, into pure issues (no pull-request marker) and pull requests
(marker present), each as a sequence of URL→title entries. -/
theorem open_issues_partition :
    get_open_issues_and_prs none = ([], []) ∧
    ∀ issues : List IssueRecord,
      get_open_issues_and_prs (some issues) =
        ((issues.filter (fun i => !i.has_pull_request)).map (fun i => (i.html_url, i.title)),
         (issues.filter (fun i => i.has_pull_request)).map (fun i => (i.html_url, i.title))) := by
  refine ⟨rfl, ?_⟩
  intro issues
  show issuesLoop issues = _
  induction issues with
  | nil => rfl
  | cons issue rest ih =>
    rw [issuesLoop, ih]
    by_cases h : issue.has_pull_request <;> simp [h]

/-- One review of a PR: its state string and the reviewing user's login. -/
structure ReviewRecord where
  state : String
  user_login : String
deriving Repr, DecidableEq

/-- The decoded single-PR detail (`single_pr.json()`): the merging user's
login, and the decoded review-list response for that PR (`none` standing
for `pr_reviews.ok` false). -/
structure PRDetail where
  merged_by_login : String
  reviews : Option (List ReviewRecord)
deriving Repr, DecidableEq

/-- One item of the closed-PRs page. `merged_at` is `none` when the field
is absent, `some none` when it is JSON null, `some (some t)` when it holds
a merge timestamp (embedded as the parsed datetime, an integer second
count). `detail` is the single-PR fetch result (`none` standing for
`single_pr.ok` false). -/
structure PRRecord where
  merged_at : Option (Option Int)
  user_login : String
  detail : Option PRDetail
deriving Repr, DecidableEq

/-- Embeds `str.lower` (ASCII case folding, the only case the repo's data
exercises). -/
def pyLower (s : String) : String := ⟨s.data.map Char.toLower⟩

/-- The reviewer logins one kept PR contributes: the merging user, then the
login of every review whose state lower-cases to "approved"; sub-request
failures contribute nothing from that point on. -/
def reviewersOf (pr : PRRecord) : List String :=
  match pr.detail with
  | none => []
  | some d =>
    d.merged_by_login ::
      (match d.reviews with
       | none => []
       | some revs =>
         (revs.filter (fun rv => pyLower rv.state = "approved")).map (fun rv => rv.user_login))

/-- `datetime.timedelta(days=7)` in seconds. -/
def sevenDays : Int := 7 * 86400

/-- The `for pr in prs` loop of `get_contributors`: a PR with an absent or
null `merged_at`, or one merged before `tm7` (today minus seven days), is
skipped; otherwise its author joins the contributors, its reviewers join
the reviewers, and the merged-PR count is incremented. -/
def contribLoop (tm7 : Int) : List PRRecord → List String × List String × Nat
  | [] => ([], [], 0)
  | pr :: rest =>
    let (cs, rs, n) := contribLoop tm7 rest
    match pr.merged_at with
    | none => (cs, rs, n)
    | some none => (cs, rs, n)
    | some (some t) =>
      if t < tm7 then (cs, rs, n)
      else (pr.user_login :: cs, reviewersOf pr ++ rs, n + 1)

/-- Embeds `get_contributors`. The argument is the decoded closed-PRs page,
`none` standing for `result.ok` false. -/
def get_contributors (today : Int) (resp : Option (List PRRecord)) :
    List String × List String × Nat :=
  match resp with
  | none => ([], [], 0)
  | some prs => contribLoop (today - sevenDays) prs

/-- Whether a PR passes the merge-window test of `get_contributors`: a
present, non-null `merged_at` not earlier than today minus seven days. -/
def prKeep (tm7 : Int) (pr : PRRecord) : Bool :=
  match pr.merged_at with
  | some (some t) => if t < tm7 then false else true
  | _ => false

/-- C3 (amended): on a closed-PR page, exactly the PRs with a present,
non-null `merged_at` not earlier than today minus seven days contribute:
each such PR adds its author to the contributors and increments the
merged-PR count, and adds its merging user and approved reviewers to the
reviewer list when the corresponding sub-requests succeed; a PR lacking
`merged_at`, with `merged_at` null, or merged before the window
contributes nothing. -/
theorem contributors_window_filter (today : Int) (prs : List PRRecord) :
    get_contributors today (some prs) =
      ((prs.filter (prKeep (today - sevenDays))).map PRRecord.user_login,
       ((prs.filter (prKeep (today - sevenDays))).map reviewersOf).flatten,
       (prs.filter (prKeep (today - sevenDays))).length) := by
  show contribLoop (today - sevenDays) prs = _
  generalize today - sevenDays = tm7
  induction prs with
  | nil => rfl
  | cons pr rest ih =>
    rw [contribLoop, ih]
    match hm : pr.merged_at with
    | none => simp [List.filter, prKeep, hm]
    | some none => simp [List.filter, prKeep, hm]
    | some (some t) =>
      by_cases ht : t < tm7
      · simp [List.filter, prKeep, hm, ht]
      · simp [List.filter, prKeep, hm, ht]

/-- A PR merged in-window whose single-PR detail fetch fails. -/
def prDetailLost : PRRecord :=
  { merged_at := some (some 1000), user_login := "alice", detail := none }

/-- Counterexample to C3 as stated: `prDetailLost` has a non-null
`merged_at` inside the window (it is counted and its author recorded), yet
it contributes nothing to the reviewer list because the single-PR detail
fetch failed — so in-window merging does not imply a reviewer-list
contribution. -/
theorem contributors_reviewer_gap :
    prKeep (1000 - sevenDays) prDetailLost = true ∧
      get_contributors 1000 (some [prDetailLost]) = (["alice"], [], 1) := by
  constructor
  · decide
  · rfl

/-! ## The top-level aggregation loop -/

/-- One validator error signal: either a bare error-kind identifier or an
(error-kind, elapsed-days) pair. -/
inductive ErrorSignal where
  | bare (kind : String)
  | withDays (kind : String) (days : Nat)
deriving Repr, DecidableEq

/-- The error-ledger update
`if error not in repos_by_error: repos_by_error[error] = []` followed by
`repos_by_error[error].append(entry)`: the entry is appended to the list
at the first (unique, by construction) occurrence of the kind, a fresh
kind is appended at the end with a singleton list. -/
def ledgerAdd : List (String × List String) → String → String → List (String × List String)
  | [], kind, entry => [(kind, [entry])]
  | (k, vs) :: rest, kind, entry =>
    if k = kind then (k, vs ++ [entry]) :: rest
    else (k, vs) :: ledgerAdd rest kind entry

/-- The per-signal branch of the validator-error loop: a tuple signal is
recorded under its kind as `html_url ++ " (days days)"`, a bare signal as
the bare `html_url`. (The sentinel flush kind only prints buffered
diagnostics; its ledger effect is the same as any bare kind.) -/
def applyError (html_url : String) (ledger : List (String × List String)) :
    ErrorSignal → List (String × List String)
  | .bare kind => ledgerAdd ledger kind html_url
  | .withDays kind days =>
    ledgerAdd ledger kind (html_url ++ " (" ++ toString days ++ " days)")

theorem alookup_ledgerAdd (led : List (String × List String)) (kind entry : String) :
    alookup (ledgerAdd led kind entry) kind =
      some ((alookup led kind).getD [] ++ [entry]) := by
  induction led with
  | nil => simp [ledgerAdd, alookup]
  | cons p rest ih =>
    obtain ⟨k, vs⟩ := p
    by_cases h : k = kind
    · simp [ledgerAdd, alookup, h]
    · simp [ledgerAdd, alookup, h, ih]

theorem alookup_ledgerAdd_isSome (led : List (String × List String))
    (kind entry k : String) (h : (alookup led k).isSome = true) :
    (alookup (ledgerAdd led kind entry) k).isSome = true := by
  induction led with
  | nil => simp [alookup] at h
  | cons p rest ih =>
    obtain ⟨k', vs⟩ := p
    rw [ledgerAdd]
    by_cases hkind : k' = kind
    · rw [if_pos hkind]
      by_cases hk : k' = k
      · simp [alookup, hk]
      · simp only [alookup, if_neg hk] at h
        simp [alookup, hk, h]
    · rw [if_neg hkind]
      by_cases hk : k' = k
      · simp [alookup, hk]
      · simp only [alookup, if_neg hk] at h
        simp [alookup, hk, ih h]

/-- C7: recording a (kind, days) validator signal appends the repository
URL suffixed with "(days days)" under that kind, recording a bare signal
appends the URL alone, and once two such signals (one of each shape,
possibly from different repositories) have been recorded, both kinds are
keys of the ledger. -/
theorem error_ledger_shapes (led : List (String × List String))
    (url url₂ kind kind₂ : String) (days : Nat) :
    alookup (applyError url led (.withDays kind days)) kind =
        some ((alookup led kind).getD [] ++ [url ++ " (" ++ toString days ++ " days)"]) ∧
    alookup (applyError url led (.bare kind)) kind =
        some ((alookup led kind).getD [] ++ [url]) ∧
    ((alookup (applyError url₂ (applyError url led (.withDays kind days)) (.bare kind₂))
        kind).isSome = true ∧
     (alookup (applyError url₂ (applyError url led (.withDays kind days)) (.bare kind₂))
        kind₂).isSome = true) := by
  refine ⟨alookup_ledgerAdd led kind _, alookup_ledgerAdd led kind _, ?_, ?_⟩
  · refine alookup_ledgerAdd_isSome _ kind₂ url₂ kind ?_
    simp only [applyError]
    rw [alookup_ledgerAdd]
    rfl
  · simp only [applyError]
    rw [alookup_ledgerAdd]
    rfl

/-- The classification returned by the external `is_new_or_updated`
collaborator. -/
inductive Classification where
  | notNew
  | isNew
  | isUpdated
deriving Repr, DecidableEq

/-- A repository descriptor together with the responses the external world
gives for it during the run: its new-or-updated classification, its
issues-endpoint and closed-PRs responses (`none` = request failure), and
the validator's error signals. -/
structure RepoData where
  name : String
  html_url : String
  check_releases : Classification
  issues_resp : Option (List IssueRecord)
  pulls_resp : Option (List PRRecord)
  validator_errors : List ErrorSignal
deriving Repr, DecidableEq

/-- The accumulators of the aggregation loop. -/
structure AggState where
  new_libs : List (String × String)
  updated_libs : List (String × String)
  open_issues_by_repo : List (String × List (String × String))
  open_prs_by_repo : List (String × List (String × String))
  contributors : List String
  reviewers : List String
  merged_pr_count_total : Nat
  repos_by_error : List (String × List String)
deriving Repr, DecidableEq

/-- The empty accumulators at loop entry. -/
def initState : AggState :=
  { new_libs := [], updated_libs := [], open_issues_by_repo := [],
    open_prs_by_repo := [], contributors := [], reviewers := [],
    merged_pr_count_total := 0, repos_by_error := [] }

/-- The loop's skip test: the repository's name is in the bundle ignore
list or equals the umbrella project name "circuitpython". -/
def isExcluded (ignoreList : List String) (r : RepoData) : Bool :=
  ignoreList.contains r.name || r.name = "circuitpython"

/-- One iteration of the aggregation loop over `repos`: skip excluded
repositories; route the repository into the new- or updated-libraries
dict; record its non-empty open-issue and open-PR sequences; extend the
contributor and reviewer accumulators and the merged-PR count; fold the
validator's error signals into the error ledger. -/
def processRepo (today : Int) (ignoreList : List String) (st : AggState)
    (r : RepoData) : AggState :=
  if isExcluded ignoreList r then st
  else
    let st₁ :=
      match r.check_releases with
      | .isNew => { st with new_libs := dictSet st.new_libs r.name r.html_url }
      | .isUpdated => { st with updated_libs := dictSet st.updated_libs r.name r.html_url }
      | .notNew => st
    let checked := get_open_issues_and_prs r.issues_resp
    let st₂ :=
      if checked.1.isEmpty then st₁
      else { st₁ with open_issues_by_repo := dictSet st₁.open_issues_by_repo r.name checked.1 }
    let st₃ :=
      if checked.2.isEmpty then st₂
      else { st₂ with open_prs_by_repo := dictSet st₂.open_prs_by_repo r.name checked.2 }
    let contribs := get_contributors today r.pulls_resp
    let st₄ :=
      { st₃ with contributors := st₃.contributors ++ contribs.1,
                 reviewers := st₃.reviewers ++ contribs.2.1,
                 merged_pr_count_total := st₃.merged_pr_count_total + contribs.2.2 }
    { st₄ with repos_by_error := r.validator_errors.foldl (applyError r.html_url) st₄.repos_by_error }

/-- The full aggregation loop from empty accumulators. -/
def aggregate (today : Int) (ignoreList : List String) (repos : List RepoData) : AggState :=
  repos.foldl (processRepo today ignoreList) initState

theorem processRepo_excluded (today : Int) (ignoreList : List String)
    (st : AggState) (r : RepoData) (h : isExcluded ignoreList r = true) :
    processRepo today ignoreList st r = st := by
  simp [processRepo, h]

theorem foldl_processRepo_filter (today : Int) (ignoreList : List String)
    (repos : List RepoData) (st : AggState) :
    repos.foldl (processRepo today ignoreList) st =
      (repos.filter (fun r => !isExcluded ignoreList r)).foldl
        (processRepo today ignoreList) st := by
  induction repos generalizing st with
  | nil => rfl
  | cons r rest ih =>
    by_cases h : isExcluded ignoreList r
    · simp [List.foldl, List.filter, h, processRepo_excluded today ignoreList st r h, ih]
    · simp only [List.foldl, List.filter, h]
      simpa [h] using ih (processRepo today ignoreList st r)

/-! ## The report serializer -/

/-- The comparison `sorted(d, key=str.lower)` sorts by: case-insensitive
key order, embedded as code-point lexicographic order (Python string
order) on the lower-cased key. -/
def keyLe {α : Type} (p q : String × α) : Prop :=
  (pyLower p.1).data ≤ (pyLower q.1).data

/-- The strict version of `keyLe`. -/
def keyLt {α : Type} (p q : String × α) : Prop :=
  (pyLower p.1).data < (pyLower q.1).data

instance keyLeDecidable {α : Type} : @DecidableRel (String × α) keyLe :=
  fun p q => show Decidable ((pyLower p.1).data ≤ (pyLower q.1).data) from inferInstance

instance keyLeTotal {α : Type} : IsTotal (String × α) keyLe :=
  ⟨fun p q => le_total (pyLower p.1).data (pyLower q.1).data⟩

instance keyLeTrans {α : Type} : IsTrans (String × α) keyLe :=
  ⟨fun _ _ _ h₁ h₂ => le_trans h₁ h₂⟩

instance keyLtAntisymm {α : Type} : IsAntisymm (String × α) keyLt :=
  ⟨fun _ _ h₁ h₂ => (lt_asymm h₁ h₂).elim⟩

/-- Embeds the `sorted_* = {}; for k in sorted(d, key=str.lower): ...`
blocks: rebuild the mapping with its entries stably sorted by
case-insensitive key (Python's sort is stable; so is insertion sort with a
total preorder). -/
def pySortDict {α : Type} (d : List (String × α)) : List (String × α) :=
  List.insertionSort keyLe d

/-- A JSON value, as far as the report document needs one. -/
inductive Json where
  | str (s : String)
  | num (n : Int)
  | arr (items : List Json)
  | obj (fields : List (String × Json))

/-- A JSON array of strings. -/
def strListJson (l : List String) : Json := .arr (l.map Json.str)

/-- A repo-name → URL mapping as a JSON object. -/
def urlDictJson (d : List (String × String)) : Json :=
  .obj (d.map (fun p => (p.1, Json.str p.2)))

/-- An ordered sequence of single-entry URL→title mappings. -/
def issueListJson (entries : List (String × String)) : Json :=
  .arr (entries.map (fun e => Json.obj [(e.1, Json.str e.2)]))

/-- A repo-name → issue-sequence mapping as a JSON object. -/
def issuesDictJson (d : List (String × List (String × String))) : Json :=
  .obj (d.map (fun p => (p.1, issueListJson p.2)))

/-- The error ledger as a JSON object of string arrays. -/
def errorsDictJson (d : List (String × List String)) : Json :=
  .obj (d.map (fun p => (p.1, strListJson p.2)))

/-- Embeds the `build_json = {...}` assembly: the five aggregated mappings
sorted case-insensitively, the contributor and reviewer lists passed
through `set(...)` (embedded as first-occurrence deduplication — Python
leaves the iteration order of the set unspecified), and the merged-PR
count rendered with `str(...)`. -/
def build_json (run_time : String) (st : AggState) : List (String × Json) :=
  [("updated_at", Json.str run_time),
   ("contributors", strListJson st.contributors.dedup),
   ("reviewers", strListJson st.reviewers.dedup),
   ("merged_pr_count", Json.str (toString st.merged_pr_count_total)),
   ("library_updates",
     Json.obj [("new", urlDictJson (pySortDict st.new_libs)),
               ("updated", urlDictJson (pySortDict st.updated_libs))]),
   ("open_issues", issuesDictJson (pySortDict st.open_issues_by_repo)),
   ("pull_requests", issuesDictJson (pySortDict st.open_prs_by_repo)),
   ("repo_infrastructure_errors", errorsDictJson (pySortDict st.repos_by_error))]

theorem pySortDict_sorted {α : Type} (d : List (String × α)) :
    List.Sorted keyLe (pySortDict d) :=
  List.sorted_insertionSort keyLe d

theorem sorted_keyLt_of_nodup {α : Type} (l : List (String × α))
    (hs : List.Sorted keyLe l)
    (hn : (l.map (fun p => pyLower p.1)).Nodup) : List.Sorted keyLt l := by
  have hn' : l.Pairwise (fun a b => pyLower a.1 ≠ pyLower b.1) :=
    List.pairwise_map.mp hn
  have hp : l.Pairwise (fun a b => keyLe a b ∧ pyLower a.1 ≠ pyLower b.1) :=
    List.Pairwise.and hs hn'
  refine hp.imp ?_
  rintro a b ⟨hle, hne⟩
  refine lt_of_le_of_ne hle (fun h => hne ?_)
  exact congrArg String.mk h

/-- C2 (amended): every mapping the report serializer emits has its keys
in case-insensitive ascending (nondecreasing) order; and the sorted
mapping is independent of the order in which its entries were accumulated
provided no two of its keys share the same lower-cased form. -/
theorem report_mappings_sorted :
    (∀ (α : Type) (d : List (String × α)), List.Sorted keyLe (pySortDict d)) ∧
    (∀ (α : Type) (d₁ d₂ : List (String × α)), d₁.Perm d₂ →
      (d₁.map (fun p => pyLower p.1)).Nodup → pySortDict d₁ = pySortDict d₂) := by
  refine ⟨fun α d => pySortDict_sorted d, fun α d₁ d₂ hperm hn => ?_⟩
  have p₁ : (pySortDict d₁).Perm d₁ := List.perm_insertionSort keyLe d₁
  have p₂ : (pySortDict d₂).Perm d₂ := List.perm_insertionSort keyLe d₂
  have hn₁ : ((pySortDict d₁).map (fun p => pyLower p.1)).Nodup :=
    ((p₁.map (fun p => pyLower p.1)).nodup_iff).mpr hn
  have hn₂ : ((pySortDict d₂).map (fun p => pyLower p.1)).Nodup := by
    refine ((p₂.map (fun p => pyLower p.1)).nodup_iff).mpr ?_
    exact ((hperm.map (fun p => pyLower p.1)).nodup_iff).mp hn
  exact List.eq_of_perm_of_sorted (p₁.trans (hperm.trans p₂.symm))
    (sorted_keyLt_of_nodup _ (pySortDict_sorted d₁) hn₁)
    (sorted_keyLt_of_nodup _ (pySortDict_sorted d₂) hn₂)

/-- Witness for C2 (amended): the sorted mapping of `{b: 1, A: 2}` is
sorted case-insensitively, and accumulating its two entries in either
order serializes identically (their lower-cased keys differ). -/
theorem report_mappings_sorted_witness :
    List.Sorted keyLe (pySortDict [("b", "1"), ("A", "2")]) ∧
      pySortDict [("b", "1"), ("A", "2")] = pySortDict [("A", "2"), ("b", "1")] :=
  ⟨report_mappings_sorted.1 String [("b", "1"), ("A", "2")],
   report_mappings_sorted.2 String [("b", "1"), ("A", "2")] [("A", "2"), ("b", "1")]
     (List.Perm.swap ("A", "2") ("b", "1") []) (by decide)⟩

/-- Two repositories whose names differ only in letter case, both
classified as new, with no issues, PRs, or validator errors. -/
def cexRepoA : RepoData :=
  { name := "Ab", html_url := "uA", check_releases := .isNew,
    issues_resp := none, pulls_resp := none, validator_errors := [] }

/-- Case-colliding sibling of `cexRepoA`. -/
def cexRepoB : RepoData :=
  { name := "aB", html_url := "uB", check_releases := .isNew,
    issues_resp := none, pulls_resp := none, validator_errors := [] }

/-- Counterexample to C2 as stated: iterating the same two repositories in
the two possible orders accumulates the same new-libraries entries (as a
multiset), yet the case-insensitive sort is stable, so with the two keys
sharing a lower-cased form the serialized mapping differs — the output is
not independent of repository iteration order. -/
theorem report_order_dependent :
    ((aggregate 0 [] [cexRepoA, cexRepoB]).new_libs).Perm
        ((aggregate 0 [] [cexRepoB, cexRepoA]).new_libs) ∧
      pySortDict ((aggregate 0 [] [cexRepoA, cexRepoB]).new_libs) ≠
        pySortDict ((aggregate 0 [] [cexRepoB, cexRepoA]).new_libs) := by
  constructor
  · decide
  · decide

/-- C4: repositories whose name is in the exclusion list or equals the
umbrella project's name contribute nothing to the report document — the
document built from any repository list equals the one built from the list
with those repositories removed, so they appear in none of its mappings. -/
theorem excluded_repos_invisible (today : Int) (ignoreList : List String)
    (run_time : String) (repos : List RepoData) :
    build_json run_time (aggregate today ignoreList repos) =
      build_json run_time
        (aggregate today ignoreList (repos.filter (fun r => !isExcluded ignoreList r))) :=
  congrArg (build_json run_time) (foldl_processRepo_filter today ignoreList repos initState)

/-- C8: the contributor and reviewer sequences of the report document are
the deduplicated accumulator lists and contain no duplicate login. -/
theorem contributors_reviewers_nodup (run_time : String) (st : AggState) :
    alookup (build_json run_time st) "contributors" =
        some (strListJson st.contributors.dedup) ∧
      alookup (build_json run_time st) "reviewers" =
        some (strListJson st.reviewers.dedup) ∧
      st.contributors.dedup.Nodup ∧ st.reviewers.dedup.Nodup := by
  refine ⟨?_, ?_, List.nodup_dedup st.contributors, List.nodup_dedup st.reviewers⟩
  · simp [build_json, alookup]
  · simp [build_json, alookup]

/-- C10: the report serializes the total merged-PR count as a JSON string
holding the decimal rendering of the accumulator, never as a JSON number. -/
theorem merged_pr_count_is_string (run_time : String) (st : AggState) :
    alookup (build_json run_time st) "merged_pr_count" =
        some (Json.str (toString st.merged_pr_count_total)) ∧
      ∀ n : Int, alookup (build_json run_time st) "merged_pr_count" ≠
        some (Json.num n) := by
  constructor
  · simp [build_json, alookup]
  · intro n h
    rw [show alookup (build_json run_time st) "merged_pr_count" =
        some (Json.str (toString st.merged_pr_count_total)) by simp [build_json, alookup]] at h
    exact Json.noConfusion (Option.some_injective _ h)

/-! ## The publish flow (`update_json_file`) -/

/-- What `update_json_file` reads off one HTTP response: its success flag,
the `message` field of its JSON body (consulted only after branch
creation), and its raw text (quoted in fatal errors). -/
structure ApiResponse where
  ok : Bool
  message : String
  text : String
deriving Repr, DecidableEq

/-- The five responses the remote-update protocol receives, in protocol
order. -/
structure PublishApi where
  master_ref : ApiResponse
  blob : ApiResponse
  create_branch : ApiResponse
  update_contents : ApiResponse
  create_pr : ApiResponse
deriving Repr, DecidableEq

/-- The remote-update steps, in protocol order. -/
inductive Step where
  | getMasterRef
  | getBlobSha
  | createBranch
  | updateContents
  | createPR
deriving Repr, DecidableEq

/-- Embeds `update_json_file`: the sequence of steps attempted and, when a
step fails fatally, the message of the `RuntimeError` it raises. Branch
creation is fatal only when the response is not ok and its message is not
"Reference already exists". -/
def update_json_file (api : PublishApi) : List Step × Option String :=
  let steps₁ := [Step.getMasterRef]
  if api.master_ref.ok = false then
    (steps₁, some ("Failed to retrieve master sha:\n" ++ api.master_ref.text))
  else
    let steps₂ := steps₁ ++ [Step.getBlobSha]
    if api.blob.ok = false then
      (steps₂, some ("Failed to retrieve libraries.json sha:\n" ++ api.blob.text))
    else
      let steps₃ := steps₂ ++ [Step.createBranch]
      if api.create_branch.ok = false ∧ api.create_branch.message ≠ "Reference already exists" then
        (steps₃, some ("Failed to create branch:\n" ++ api.create_branch.text))
      else
        let steps₄ := steps₃ ++ [Step.updateContents]
        if api.update_contents.ok = false then
          (steps₄, some ("Failed to update libraries.json:\n" ++ api.update_contents.text))
        else
          let steps₅ := steps₄ ++ [Step.createPR]
          if api.create_pr.ok = false then
            (steps₅, some ("Failed to create pull request:\n" ++ api.create_pr.text))
          else (steps₅, none)

/-- C5: with the two lookup steps successful and branch creation failing,
an "already exists" conflict is tolerated — the content-update step is
attempted (and PR creation too once the content update succeeds), exactly
as if branch creation had succeeded; any other branch-creation failure
raises the fatal branch error and neither later step is attempted. -/
theorem branch_conflict_tolerated (api : PublishApi)
    (href : api.master_ref.ok = true) (hblob : api.blob.ok = true)
    (hbr : api.create_branch.ok = false) :
    (api.create_branch.message = "Reference already exists" →
      Step.updateContents ∈ (update_json_file api).1 ∧
        (api.update_contents.ok = true → Step.createPR ∈ (update_json_file api).1) ∧
        update_json_file api =
          update_json_file { api with create_branch := { api.create_branch with ok := true } }) ∧
    (api.create_branch.message ≠ "Reference already exists" →
      (update_json_file api).2 = some ("Failed to create branch:\n" ++ api.create_branch.text) ∧
        Step.updateContents ∉ (update_json_file api).1 ∧
        Step.createPR ∉ (update_json_file api).1) := by
  constructor
  · intro hmsg
    refine ⟨?_, ?_, ?_⟩
    · rw [update_json_file]
      simp only [href, hmsg]
      by_cases hup : api.update_contents.ok = false <;>
        by_cases hpr : api.create_pr.ok = false <;> simp [hblob, hup, hpr]
    · intro hup
      rw [update_json_file]
      simp only [href, hmsg, hup]
      by_cases hpr : api.create_pr.ok = false <;> simp [hblob, hup, hpr]
    · rw [update_json_file, update_json_file]
      simp [href, hmsg]
  · intro hmsg
    rw [update_json_file]
    simp [href, hblob, hbr, hmsg]

/-- Witness for C5: lookups succeed, branch creation returns a non-ok
response whose message is the tolerated conflict, and the remaining steps
succeed. -/
theorem branch_conflict_tolerated_witness :
    let api : PublishApi :=
      { master_ref := ⟨true, "", ""⟩, blob := ⟨true, "", ""⟩,
        create_branch := ⟨false, "Reference already exists", "conflict"⟩,
        update_contents := ⟨true, "", ""⟩, create_pr := ⟨true, "", ""⟩ }
    (api.create_branch.message = "Reference already exists" →
      Step.updateContents ∈ (update_json_file api).1 ∧
        (api.update_contents.ok = true → Step.createPR ∈ (update_json_file api).1) ∧
        update_json_file api =
          update_json_file { api with create_branch := { api.create_branch with ok := true } }) ∧
    (api.create_branch.message ≠ "Reference already exists" →
      (update_json_file api).2 = some ("Failed to create branch:\n" ++ api.create_branch.text) ∧
        Step.updateContents ∉ (update_json_file api).1 ∧
        Step.createPR ∉ (update_json_file api).1) :=
  branch_conflict_tolerated
    { master_ref := ⟨true, "", ""⟩, blob := ⟨true, "", ""⟩,
      create_branch := ⟨false, "Reference already exists", "conflict"⟩,
      update_contents := ⟨true, "", ""⟩, create_pr := ⟨true, "", ""⟩ }
    rfl rfl rfl

end Adabot
